import Mathlib

/-!
Verification of the A2A sample agents (calendar agent, birthday agent,
headless-agent-auth OAuth2 middleware) against their natural-language
specification.  Each Python source function is shallowly embedded as an
executable Lean definition; Python exceptions are modelled by the
`PyError` type and fallible code returns `Except PyError _`.
-/

/-- Python exceptions raised by the embedded code. -/
inductive PyError where
  | valueError (msg : String)
  | keyError (key : String)
  | nameError (nm : String)
  | attributeError (msg : String)
  | notImplementedError (msg : String)
  deriving DecidableEq, Repr

deriving instance DecidableEq for Except

/-- `d.get(k)` on a Python dict modelled as an insertion-ordered
association list: value of the first (unique) binding of `k`. -/
def dictGet {α : Type} (d : List (String × α)) (k : String) : Option α :=
  (d.find? (fun p => p.1 == k)).map (·.2)

/-- `d[k] = v` on a Python dict: overwrite the existing binding in place
if present (keeping its position), otherwise append a new binding. -/
def dictInsert {α : Type} (d : List (String × α)) (k : String) (v : α) :
    List (String × α) :=
  if (d.find? (fun p => p.1 == k)).isSome then
    d.map (fun p => if p.1 == k then (k, v) else p)
  else
    d ++ [(k, v)]

/-- `del d[k]` on a Python dict (at call sites the key is present). -/
def dictDel {α : Type} (d : List (String × α)) (k : String) :
    List (String × α) :=
  d.filter (fun p => !(p.1 == k))

/-- Auxiliary: `sub` is a leading segment of `hay` (character lists). -/
def leadsWith : List Char → List Char → Bool
  | [], _ => true
  | _ :: _, [] => false
  | a :: as, b :: bs => a == b && leadsWith as bs

/-- Auxiliary: `sub` occurs inside `hay` (character lists). -/
def hasSub (sub : List Char) : List Char → Bool
  | [] => leadsWith sub []
  | c :: rest => leadsWith sub (c :: rest) || hasSub sub rest

/-- Python `sub in s` on strings. -/
def strContains (s sub : String) : Bool :=
  hasSub sub.toList s.toList

/-- Python `s.startswith(pre)`. -/
def pyStartsWith (s pre : String) : Bool :=
  leadsWith pre.toList s.toList

/-- Splitting on a non-empty separator, left to right, non-overlapping
(the recursion is fuelled by the input length, which bounds the number
of steps). -/
def splitChars (sep : List Char) : Nat → List Char → List (List Char)
  | _, [] => [[]]
  | 0, cs => [cs]
  | f + 1, c :: rest =>
      if sep ≠ [] && leadsWith sep (c :: rest) then
        [] :: splitChars sep f ((c :: rest).drop sep.length)
      else
        match splitChars sep f rest with
        | g :: gs => (c :: g) :: gs
        | [] => [[c]]

/-- Python `s.split(sep)` for a non-empty separator. -/
def pySplitOn (s sep : String) : List String :=
  (splitChars sep.toList s.toList.length s.toList).map (fun cs => String.mk cs)

/-- Python `sep.join(l)`. -/
def pyJoin (sep : String) : List String → String
  | [] => ""
  | [s] => s
  | s :: rest => s ++ sep ++ pyJoin sep rest

/-- Lower-casing of an ASCII character. -/
def charLower (c : Char) : Char :=
  if 65 ≤ c.toNat ∧ c.toNat ≤ 90 then Char.ofNat (c.toNat + 32) else c

/-- Lower-casing of an ASCII header name. -/
def pyToLower (s : String) : String :=
  String.mk (s.toList.map charLower)

/-- Python `s.split()` (no separator): split on blanks, drop empties.
The scope strings handled here contain no tabs or newlines, so splitting
on single spaces is exact. -/
def pySplit (s : String) : List String :=
  (pySplitOn s " ").filter (fun t => t ≠ "")

/-- A single-quote character, as used by Python `repr` of strings. -/
def pyQuote : String := (Char.ofNat 39).toString

/-- Python `str(list_of_strings)`, as interpolated by an f-string:
`["a", "b"]` renders as `['a', 'b']`. -/
def pyListRepr (l : List String) : String :=
  "[" ++ pyJoin ", " (l.map (fun s => pyQuote ++ s ++ pyQuote)) ++ "]"

/-! ## OAuth2Middleware (headless_agent_auth/oauth2_middleware.py) -/

/-- The `root` of a security scheme: either an `OAuth2SecurityScheme`
(with or without a `flows.clientCredentials` entry) or any other scheme
class. -/
inductive SchemeRoot where
  | oauth2 (clientCredentials : Bool)
  | otherScheme
  deriving DecidableEq, Repr

/-- The scheme check from `OAuth2Middleware.__init__`:
`isinstance(sec_scheme.root, OAuth2SecurityScheme)` and
`sec_scheme.root.flows.clientCredentials is not None`. -/
def schemeSupported : SchemeRoot → Bool
  | .oauth2 cc => cc
  | .otherScheme => false

/-- One Security Requirement Object: an ordered dict mapping scheme
names to their required scope lists. -/
abbrev SecReq : Type := List (String × List String)

/-- The slice of an `AgentCard` read by the middleware. -/
structure AgentCardM where
  security : Option (List SecReq)
  securitySchemes : List (String × SchemeRoot)

/-- Inner loop of `OAuth2Middleware.__init__` over the entries of one
security requirement: look up the scheme (`KeyError` if absent), raise
`NotImplementedError` for unsupported schemes, and otherwise overwrite
`self.a2a_auth` with `{required_scopes: scopes}` (modelled as
`some scopes`; the empty dict `{}` is `none`). -/
def procEntries (card : AgentCardM) (acc : Option (List String)) :
    List (String × List String) → Except PyError (Option (List String))
  | [] => .ok acc
  | (nm, scopes) :: rest =>
      match dictGet card.securitySchemes nm with
      | none => .error (.keyError nm)
      | some root =>
          if schemeSupported root then
            procEntries card (some scopes) rest
          else
            .error (.notImplementedError
              "Only OAuth2SecurityScheme -> ClientCredentialsOAuthFlow is supported.")

/-- Outer loop of `OAuth2Middleware.__init__` over
`agent_card.security or []`: an empty requirement dict `break`s the
loop (allow anonymous), otherwise its entries are processed in order. -/
def procReqs (card : AgentCardM) (acc : Option (List String)) :
    List SecReq → Except PyError (Option (List String))
  | [] => .ok acc
  | req :: rest =>
      if req.isEmpty then .ok acc
      else
        match procEntries card acc req with
        | .error e => .error e
        | .ok acc2 => procReqs card acc2 rest

/-- `OAuth2Middleware.__init__`: the final value of `self.a2a_auth`
(`none` for the initial empty dict `{}`). -/
def initAuth (card : AgentCardM) : Except PyError (Option (List String)) :=
  procReqs card none (card.security.getD [])

/-- What the spec says instead: the scopes of the first scheme in the
advertised list that matches a configured (i.e. supported) verifier.
Written from the specification text, for comparison with `initAuth`. -/
def specFirstMatchingScopes (card : AgentCardM) : Option (List String) :=
  (((card.security.getD []).flatten).find? (fun p =>
      match dictGet card.securitySchemes p.1 with
      | some root => schemeSupported root
      | none => false)).map (·.2)

/-- The slice of a Starlette `Request` read by the middleware. -/
structure RequestM where
  path : String
  headers : List (String × String)

/-- `request.headers.get(name)` — Starlette headers are
case-insensitive. -/
def getHeader (req : RequestM) (nm : String) : Option String :=
  dictGet (req.headers.map (fun p => (pyToLower p.1, p.2))) (pyToLower nm)

/-- `'text/event-stream' in request.headers.get('accept', '')`. -/
def acceptsStream (req : RequestM) : Bool :=
  strContains ((getHeader req "accept").getD "") "text/event-stream"

/-- The middleware's possible outcomes: pass the request to the inner
app (`call_next`), or reject with the 401 / 403 response builders. -/
inductive ResponseM where
  | passthrough
  | unauthorized (reason : String) (stream : Bool)
  | forbidden (reason : String) (stream : Bool)
  deriving DecidableEq, Repr

/-- HTTP status code of a middleware rejection. -/
def ResponseM.statusCode : ResponseM → Option Nat
  | .passthrough => none
  | .unauthorized _ _ => some 401
  | .forbidden _ _ => some 403

/-- The response body sent to the client, per `_forbidden` /
`_unauthorized`: a plain-text line for streaming clients, otherwise the
JSON object `{"error": ..., "reason": ...}`. -/
def ResponseM.bodyText : ResponseM → String
  | .passthrough => ""
  | .unauthorized r true => "error unauthorized: " ++ r
  | .unauthorized r false =>
      "\x7b\"error\": \"unauthorized\", \"reason\": \"" ++ r ++ "\"\x7d"
  | .forbidden r true => "error forbidden: " ++ r
  | .forbidden r false =>
      "\x7b\"error\": \"forbidden\", \"reason\": \"" ++ r ++ "\"\x7d"

/-- The token payload returned by `api_client.verify_access_token`
(only its `scope` entry is read). -/
abbrev TokenPayload : Type := List (String × String)

/-- `OAuth2Middleware.dispatch`.  `auth` is `self.a2a_auth`,
`publicPaths` is `self.public_paths`, and `verify` is the external
verifier `api_client.verify_access_token`, returning the token payload
or an exception rendered as a string. -/
def dispatch (auth : Option (List String)) (publicPaths : List String)
    (req : RequestM) (verify : String → Except String TokenPayload) :
    ResponseM :=
  if publicPaths.contains req.path || auth.isNone then .passthrough
  else
    match getHeader req "Authorization" with
    | none => .unauthorized "Missing or malformed Authorization header." (acceptsStream req)
    | some h =>
      if h = "" || !pyStartsWith h "Bearer " then
        .unauthorized "Missing or malformed Authorization header." (acceptsStream req)
      else
        let token := (pySplitOn h "Bearer ").getD 1 ""
        match auth with
        | none => .passthrough
        | some required =>
          match verify token with
          | .error e => .forbidden ("Authentication failed: " ++ e) (acceptsStream req)
          | .ok payload =>
              let scopes := pySplit ((dictGet payload "scope").getD "")
              let missing := required.filter (fun s => !scopes.contains s)
              if !missing.isEmpty then
                .forbidden ("Missing required scopes: " ++ pyListRepr missing)
                  (acceptsStream req)
              else .passthrough

/-! ## BirthdayAgent part conversion and delegation (birthday/agent.py) -/

/-- An A2A message part.  The pydantic union discriminates on the
`type` tag: each recognized tag is one constructor; `other k` stands
for a part whose `type` tag `k` is none of the recognized ones. -/
inductive PartM where
  | text (s : String)
  | data (d : List (String × String))
  | file (nm : String) (mimeType : String) (bytes : String)
  | other (kind : String)
  deriving DecidableEq, Repr

/-- The `type` tag of a part. -/
def PartM.kind : PartM → String
  | .text _ => "text"
  | .data _ => "data"
  | .file _ _ _ => "file"
  | .other k => k

/-- A value returned by `convert_part`: the text string, the raw data
dict, or a fresh `DataPart` (the artifact reference substituted for a
file part). -/
inductive PVal where
  | str (s : String)
  | dict (d : List (String × String))
  | dataPart (d : List (String × String))
  deriving DecidableEq, Repr

/-- The slice of the ADK `ToolContext` used by `convert_part` and
`send_task`: the artifact store written by `save_artifact` (name to
blob) and the two action flags. -/
structure ToolContextM where
  artifacts : List (String × (String × String))
  skip_summarization : Bool
  escalate : Bool
  deriving DecidableEq, Repr

/-- `convert_part` (birthday/agent.py).  The if-chain on `part.type`
maps each recognized tag to its constructor.  The `file` branch
computes `file_id = part.file.name` and then evaluates
`base64.b64decode(...)` — but the module never imports `base64`, so
the name lookup raises `NameError` before anything is stored.  The
fall-through `return f-string` reads `p.type` where `p` is an
undefined name (the parameter is `part`), raising `NameError`. -/
def convert_part (p : PartM) (tc : ToolContextM) :
    Except PyError (PVal × ToolContextM) :=
  match p with
  | .text s => .ok (.str s, tc)
  | .data d => .ok (.dict d, tc)
  | .file _ _ _ => .error (.nameError "base64")
  | .other _ => .error (.nameError "p")

/-- `convert_parts`: convert each part in order, threading the tool
context; an exception aborts the whole conversion. -/
def convert_parts (ps : List PartM) (tc : ToolContextM) :
    Except PyError (List PVal × ToolContextM) :=
  match ps with
  | [] => .ok ([], tc)
  | p :: rest =>
      match convert_part p tc with
      | .error e => .error e
      | .ok (v, tc2) =>
          match convert_parts rest tc2 with
          | .error e => .error e
          | .ok (vs, tc3) => .ok (v :: vs, tc3)

/-- A2A `TaskState` values read by `send_task`. -/
inductive TaskStateM where
  | submitted | working | input_required | completed | failed | canceled
  deriving DecidableEq, Repr

/-- A task status message: its parts. -/
structure MessageM where
  parts : List PartM
  deriving DecidableEq, Repr

/-- A `TaskStatus`: state plus optional message. -/
structure TaskStatusM where
  state : TaskStateM
  message : Option MessageM
  deriving DecidableEq, Repr

/-- The `result` of one streamed response: a `TaskStatusUpdateEvent`
(which has a `status` attribute) or a `TaskArtifactUpdateEvent` (which
has neither `status` nor `attributes`; the source's
`hasattr(result, "attributes")` test is false for both event classes,
so the artifact-accumulation branch never runs). -/
inductive StreamResultM where
  | statusUpdate (status : TaskStatusM)
  | artifactUpdate
  deriving DecidableEq, Repr

/-- Whether a streamed event is an input-required status update (the
early-return test of `send_task`). -/
def isInputRequiredEvent : StreamResultM → Bool
  | .statusUpdate st => st.state == TaskStateM.input_required
  | .artifactUpdate => false

/-- The streaming loop of `BirthdayAgent.send_task`, over the finite
sequence of events the remote stream delivers before closing.  `acc`
is the accumulated `response` list.  On an `input_required` status the
actions are escalated and only that status message's converted parts
are returned (the accumulator is dropped); when the stream ends the
accumulated response is returned. -/
def send_task_loop (events : List StreamResultM) (tc : ToolContextM)
    (acc : List PVal) : Except PyError (List PVal × ToolContextM) :=
  match events with
  | [] => .ok (acc, tc)
  | .statusUpdate st :: rest =>
      if st.state == TaskStateM.input_required then
        match st.message with
        | none => .error (.attributeError "parts")
        | some m =>
            convert_parts m.parts
              { tc with skip_summarization := true, escalate := true }
      else
        match st.message with
        | some m =>
            match convert_parts m.parts tc with
            | .error e => .error e
            | .ok (vs, tc2) => send_task_loop rest tc2 (acc ++ vs)
        | none => send_task_loop rest tc acc
  | .artifactUpdate :: rest => send_task_loop rest tc acc

/-- `BirthdayAgent.send_task`, from the point where the stream is
opened: the loop starting with the empty `response` accumulator. -/
def send_task (events : List StreamResultM) (tc : ToolContextM) :
    Except PyError (List PVal × ToolContextM) :=
  send_task_loop events tc []

/-! ## CalendarAgent suspension loop (calendar/agent.py, calendar/helpers.py) -/

/-- The `oauth2` object inside an auth config:
`auth_config["exchanged_auth_credential"]["oauth2"]`. -/
structure OAuth2Obj where
  auth_uri : String
  auth_response_uri : Option String
  redirect_uri : Option String
  deriving DecidableEq, Repr

/-- `auth_config["exchanged_auth_credential"]`. -/
structure ExchangedCred where
  oauth2 : OAuth2Obj
  deriving DecidableEq, Repr

/-- The auth config dict carried in the function call's arguments. -/
structure AuthConfigM where
  exchanged_auth_credential : ExchangedCred
  deriving DecidableEq, Repr

/-- A `types.FunctionCall`.  `authConfigArg` models
`function_call.args.get("auth_config")`; it is `none` both when `args`
is absent and when the key is missing, the two cases `get_auth_config`
collapses into the same `ValueError`. -/
structure FunctionCallM where
  id : Option String
  name : String
  authConfigArg : Option AuthConfigM
  deriving DecidableEq, Repr

/-- A `types.FunctionResponse` carried by a final-response event. -/
structure FunctionResponseM where
  id : Option String
  name : String
  deriving DecidableEq, Repr

/-- One part of an ADK event's content. -/
structure EvPart where
  text : Option String
  function_call : Option FunctionCallM
  function_response : Option FunctionResponseM
  deriving DecidableEq, Repr

/-- An ADK event's content. -/
structure EvContent where
  parts : List EvPart
  deriving DecidableEq, Repr

/-- An ADK executor event, as read by `_process_events` and the
helpers: its content, its `long_running_tool_ids` (`[]` models both
`None` and the empty set, which are equally falsy), and the result of
`event.is_final_response()`. -/
structure AdkEvent where
  content : Option EvContent
  long_running_tool_ids : List String
  is_final_response : Bool
  deriving DecidableEq, Repr

/-- The per-part test inside `get_auth_request_function_call`: the part
carries a function call named `adk_request_credential` whose id is
listed among the event's long-running tool ids. -/
def isAuthCallPart (e : AdkEvent) (p : EvPart) : Bool :=
  match p.function_call with
  | some fc =>
      fc.name == "adk_request_credential" &&
      !e.long_running_tool_ids.isEmpty &&
      (match fc.id with
       | some i => e.long_running_tool_ids.contains i
       | none => false)
  | none => false

/-- `get_auth_request_function_call` (calendar/helpers.py): the first
matching part's function call, if any. -/
def get_auth_request_function_call (e : AdkEvent) : Option FunctionCallM :=
  match e.content with
  | none => none
  | some c => ((c.parts.find? (isAuthCallPart e)).bind (·.function_call))

/-- `urlparse(uri).query`: everything after the first question mark. -/
def uriQuery (uri : String) : String :=
  pyJoin "?" ((pySplitOn uri "?").drop 1)

/-- `parse_qs` on a query string, keeping the first value of each key:
split on ampersands, split each chunk at its first equals sign, and
drop chunks without an equals sign or with a blank value (the
`keep_blank_values=False` default). -/
def parseQS (q : String) : List (String × String) :=
  (pySplitOn q "&").filterMap (fun kv =>
    match pySplitOn kv "=" with
    | [] => none
    | [_] => none
    | k :: rest =>
        let v := pyJoin "=" rest
        if v = "" then none else some (k, v))

/-- `parse_qs(urlparse(uri).query)[key][0]`, as an option: the first
value bound to `key` in the uri's query string. -/
def getQueryParam (uri : String) (key : String) : Option String :=
  ((parseQS (uriQuery uri)).find? (fun p => p.1 == key)).map (·.2)

/-- The data captured by the coroutine frame at the suspension point:
the pending function call id, the auth config, the computed redirect
uri, and the state token under which the `asyncio.Future` was
registered.  The future itself is identified with this record, which is
what resolving it resumes. -/
structure Suspension where
  fcId : String
  auth_config : AuthConfigM
  redirectUri : String
  stateToken : String
  deriving DecidableEq, Repr

/-- `self._waiting_sessions`: the process-wide waiting-session dict. -/
abbrev Registry : Type := List (String × Suspension)

/-- One chunk yielded by `_process_events` to the delegation caller. -/
inductive ChunkM where
  | inputRequired (updates : String)
  | progress
  | complete (content : PVal)
  deriving DecidableEq, Repr

/-- Whether a chunk is the input-required suspension chunk. -/
def ChunkM.isInputReq : ChunkM → Bool
  | .inputRequired _ => true
  | _ => false

/-- The final-response branch of `_process_events`: the `response`
value of the complete chunk.  If the first part has truthy text, join
all truthy part texts; otherwise, if some part carries a function
response, take `next(...)` of the generator over all parts — which
evaluates `parts[0].function_response.model_dump()` and raises
`AttributeError` when the first part has no function response. -/
def finalResponseValue (e : AdkEvent) : Except PyError PVal :=
  match e.content with
  | some c =>
      match c.parts with
      | p0 :: _ =>
          if (p0.text.getD "") ≠ "" then
            .ok (.str (pyJoin "\n"
              ((c.parts.filterMap (·.text)).filter (fun t => t ≠ ""))))
          else if c.parts.any (fun p => p.function_response.isSome) then
            match p0.function_response with
            | some fr => .ok (.dict [("id", fr.id.getD ""), ("name", fr.name)])
            | none => .error (.attributeError "model_dump")
          else .ok (.str "")
      | [] => .ok (.str "")
  | none => .ok (.str "")

/-- Result of one `_process_events` invocation over one executor event
stream: the chunks yielded so far, the waiting-session dict
afterwards, and how the iteration ended. -/
inductive Outcome where
  | finished
  | suspended (s : Suspension)
  | errored (e : PyError)
  deriving DecidableEq, Repr

/-- See `Outcome`. -/
structure ProcResult where
  chunks : List ChunkM
  registry : Registry
  outcome : Outcome
  deriving DecidableEq, Repr

/-- The event loop of `CalendarAgent._process_events` over one executor
event stream (the `async for` body), carrying the card url used to
build the redirect uri and the waiting-session dict.  On a detected
auth-request function call it validates the call id, the auth config
and the auth uri (`ValueError` on falsy values), extracts the `state`
query parameter (`KeyError` when absent), registers the suspension
under the state token by plain dict assignment, yields the single
input-required chunk and breaks out of the iteration; remaining events
are not consumed.  Final responses yield a complete chunk and every
other event yields a progress chunk, both continuing the iteration. -/
def processEvents (cardUrl : String) (reg : Registry) :
    List AdkEvent → ProcResult
  | [] => ⟨[], reg, .finished⟩
  | e :: rest =>
      match get_auth_request_function_call e with
      | some fc =>
          match fc.id with
          | none => ⟨[], reg, .errored (.valueError "Cannot get function call id from function call")⟩
          | some fid =>
            if fid = "" then
              ⟨[], reg, .errored (.valueError "Cannot get function call id from function call")⟩
            else
              match fc.authConfigArg with
              | none => ⟨[], reg, .errored (.valueError "Cannot get auth config from function call")⟩
              | some cfg =>
                let base := cfg.exchanged_auth_credential.oauth2.auth_uri
                if base = "" then
                  ⟨[], reg, .errored (.valueError "Cannot get auth uri from auth config")⟩
                else
                  let redirect := cardUrl ++ "authenticate"
                  match getQueryParam base "state" with
                  | none => ⟨[], reg, .errored (.keyError "state")⟩
                  | some tok =>
                      let authReqUri := base ++ "&redirect_uri=" ++ redirect
                      let s : Suspension := ⟨fid, cfg, redirect, tok⟩
                      ⟨[.inputRequired ("Authorization is required to continue. Visit " ++ authReqUri)],
                        dictInsert reg tok s, .suspended s⟩
      | none =>
          if e.is_final_response then
            match finalResponseValue e with
            | .error err => ⟨[], reg, .errored err⟩
            | .ok v =>
                let r := processEvents cardUrl reg rest
                ⟨.complete v :: r.chunks, r.registry, r.outcome⟩
          else
            let r := processEvents cardUrl reg rest
            ⟨.progress :: r.chunks, r.registry, r.outcome⟩

/-- The chunk a non-auth event contributes. -/
def plainChunk (e : AdkEvent) : ChunkM :=
  if e.is_final_response then
    .complete ((finalResponseValue e).toOption.getD (.str ""))
  else .progress

/-- The synthesized function-response content re-entered into the
executor after a resume: the original pending function call id, the
special framework function name, and the updated auth config. -/
structure AuthRespContent where
  fcId : String
  name : String
  config : AuthConfigM
  deriving DecidableEq, Repr

/-- The resumed continuation's config update: merge the callback's
response uri and the stored redirect uri into the oauth2 object. -/
def updatedConfig (cfg : AuthConfigM) (respUri redirect : String) : AuthConfigM :=
  { exchanged_auth_credential :=
    { oauth2 :=
      { cfg.exchanged_auth_credential.oauth2 with
          auth_response_uri := some respUri
          redirect_uri := some redirect } } }

/-- Delivery of the authorization callback `(token, respUri)`:
`CalendarAgent.handle_auth` does `self._waiting_sessions[token]
.set_result(respUri)` — a `KeyError` when the token is not registered,
leaving the dict untouched.  On success the suspended `_process_events`
frame awaiting that future resumes: it deletes its `state_token` entry
and synthesizes the `adk_request_credential` function response from
the updated config.  Returns the resume outcome and the dict
afterwards. -/
def deliverCallback (reg : Registry) (token respUri : String) :
    Except PyError AuthRespContent × Registry :=
  match dictGet reg token with
  | none => (.error (.keyError token), reg)
  | some s =>
      (.ok ⟨s.fcId, "adk_request_credential",
        updatedConfig s.auth_config respUri s.redirectUri⟩,
       dictDel reg s.stateToken)

/-- Well-formedness of the waiting-session dict, preserved by every
mutation in the source: each entry is keyed by its suspension's state
token, and keys are unique (a Python dict). -/
def RegistryWF (reg : Registry) : Prop :=
  (∀ p ∈ reg, p.2.stateToken = p.1) ∧ (reg.map (·.1)).Nodup

/-- The string payload carried by a Python exception (the key of a
`KeyError`, the undefined name of a `NameError`, the message
otherwise). -/
def PyError.payload : PyError → String
  | .valueError m => m
  | .keyError k => k
  | .nameError n => n
  | .attributeError m => m
  | .notImplementedError m => m

/-- One security-requirement entry names a scheme that the card
declares and that passes the middleware's support check. -/
def entrySupported (card : AgentCardM) (q : String × List String) : Bool :=
  match dictGet card.securitySchemes q.1 with
  | some root => schemeSupported root
  | none => false

/-! Concrete inputs used by counterexamples and witnesses. -/

/-- A fresh tool context: empty artifact store, actions unset. -/
def tc0 : ToolContextM := ⟨[], false, false⟩

/-- An auth config whose authorization uri carries `state=abc123`. -/
def cfg0 : AuthConfigM := ⟨⟨⟨"https://idp/auth?state=abc123", none, none⟩⟩⟩

/-- A suspension already live under the token `abc123`. -/
def oldSusp0 : Suspension := ⟨"fc-old", cfg0, "http://old/authenticate", "abc123"⟩

/-- The suspension that processing `authEv0` registers. -/
def newSusp0 : Suspension := ⟨"fc-new", cfg0, "http://h:1/authenticate", "abc123"⟩

/-- An executor event carrying the `adk_request_credential` long-running
function call for `cfg0`. -/
def authEv0 : AdkEvent :=
  ⟨some ⟨[⟨none, some ⟨some "fc-new", "adk_request_credential", some cfg0⟩, none⟩]⟩,
   ["fc-new"], false⟩

/-- A non-final executor event with no auth call (a progress event). -/
def progEv0 : AdkEvent := ⟨some ⟨[⟨some "thinking", none, none⟩]⟩, [], false⟩

/-- A final-response executor event with a text part. -/
def finEv0 : AdkEvent := ⟨some ⟨[⟨some "Booked.", none, none⟩]⟩, [], true⟩

/-- A waiting-session dict with one live suspension under `abc123`. -/
def reg0 : Registry := [("abc123", oldSusp0)]

/-- A delegation stream with one `working` status update carrying a
text message, no terminal state and no `input_required`. -/
def evStream0 : List StreamResultM :=
  [.statusUpdate ⟨.working, some ⟨[.text "hello"]⟩⟩]

/-- A protected request bearing a syntactically valid token. -/
def req0 : RequestM := ⟨"/rpc", [("authorization", "Bearer sometoken")]⟩

/-- A protected request with no Authorization header. -/
def reqNoHdr0 : RequestM := ⟨"/rpc", []⟩

/-- A verifier that fails with an internal diagnostic message. -/
def verifyFail0 : String → Except String TokenPayload :=
  fun _ => .error "JWT verification failed: signature mismatch for kid 42"

/-- A verifier that accepts every token, granting only `scope:a`. -/
def verifyOk0 : String → Except String TokenPayload :=
  fun _ => .ok [("scope", "scope:a")]

/-- A card advertising two supported schemes in order `s1`, `s2` with
distinct scope lists. -/
def card0 : AgentCardM :=
  ⟨some [[("s1", ["scope:a"])], [("s2", ["scope:b"])]],
   [("s1", .oauth2 true), ("s2", .oauth2 true)]⟩

/-! ## Dictionary lemmas -/

/-- Lookup steps over the head binding. -/
theorem dictGet_cons {α : Type} (p : String × α) (d : List (String × α)) (k : String) :
    dictGet (p :: d) k = if p.1 == k then some p.2 else dictGet d k := by
  unfold dictGet
  rw [List.find?_cons]
  cases hp : p.1 == k <;> simp [hp]

/-- A successful dict lookup exhibits a member entry. -/
theorem dictGet_eq_some_mem {α : Type} {d : List (String × α)} {k : String} {v : α}
    (h : dictGet d k = some v) : (k, v) ∈ d := by
  unfold dictGet at h
  cases hf : d.find? (fun p => p.1 == k) with
  | none => rw [hf] at h; exact absurd h (by simp)
  | some p =>
      rw [hf] at h
      have hp := List.find?_some hf
      have hm := List.mem_of_find?_eq_some hf
      have h2 : p.2 = v := by simpa using h
      have hp2 : p.1 = k := by simpa using hp
      have hpv : p = (k, v) := by
        cases p with
        | mk a b => simp only at h2 hp2; rw [hp2, h2]
      rw [← hpv]; exact hm

/-- Lookup after overwriting an existing binding finds the new value. -/
theorem find_map_overwrite {α : Type} (d : List (String × α)) (k : String) (v : α)
    (hf : (d.find? (fun p => p.1 == k)).isSome = true) :
    dictGet (d.map (fun p => if p.1 == k then (k, v) else p)) k = some v := by
  induction d with
  | nil => simp [List.find?] at hf
  | cons p rest ih =>
      rw [List.find?_cons] at hf
      cases hp : p.1 == k with
      | true =>
          rw [List.map_cons]
          have hgp : (if (p.1 == k) = true then (k, v) else p) = (k, v) := if_pos hp
          rw [hgp, dictGet_cons]
          simp
      | false =>
          simp only [hp] at hf
          rw [List.map_cons]
          have hgp : (if (p.1 == k) = true then (k, v) else p) = p := if_neg (by simp [hp])
          rw [hgp, dictGet_cons, if_neg (by simp [hp])]
          exact ih hf

/-- Lookup after appending a fresh binding finds it. -/
theorem dictGet_append_single {α : Type} (d : List (String × α)) (k : String) (v : α)
    (hf : d.find? (fun p => p.1 == k) = none) :
    dictGet (d ++ [(k, v)]) k = some v := by
  induction d with
  | nil => rw [List.nil_append, dictGet_cons]; simp
  | cons p rest ih =>
      rw [List.find?_cons] at hf
      cases hp : p.1 == k with
      | true => simp [hp] at hf
      | false =>
          simp only [hp] at hf
          rw [List.cons_append, dictGet_cons, if_neg (by simp [hp])]
          exact ih hf

/-- Python dict assignment: afterwards the key maps to the new value. -/
theorem dictGet_dictInsert_self {α : Type} (d : List (String × α)) (k : String) (v : α) :
    dictGet (dictInsert d k v) k = some v := by
  unfold dictInsert
  by_cases hf : (d.find? (fun p => p.1 == k)).isSome
  · rw [if_pos hf]; exact find_map_overwrite d k v hf
  · rw [if_neg hf]
    exact dictGet_append_single d k v (by
      cases h : d.find? (fun p => p.1 == k) with
      | none => rfl
      | some p => rw [h] at hf; simp at hf)

/-- Python `del`: afterwards the key is absent. -/
theorem dictGet_dictDel_self {α : Type} (d : List (String × α)) (k : String) :
    dictGet (dictDel d k) k = none := by
  unfold dictGet dictDel
  have : (d.filter (fun p => !(p.1 == k))).find? (fun p => p.1 == k) = none := by
    rw [List.find?_eq_none]
    intro x hx
    have := List.of_mem_filter hx
    simpa using this
  rw [this]
  rfl

/-- Python `del` on a dict with unique keys removes exactly one entry. -/
theorem dictDel_length {α : Type} (d : List (String × α)) (k : String)
    (hnd : (d.map (·.1)).Nodup) {v : α} (hg : dictGet d k = some v) :
    (dictDel d k).length + 1 = d.length := by
  induction d with
  | nil => simp [dictGet] at hg
  | cons p rest ih =>
      rw [List.map_cons, List.nodup_cons] at hnd
      by_cases hp : (p.1 == k) = true
      · have hk : p.1 = k := by simpa using hp
        have hrest : rest.filter (fun q => !(q.1 == k)) = rest := by
          rw [List.filter_eq_self]
          intro q hq
          have hqm : q.1 ∈ List.map (fun x => x.1) rest := List.mem_map_of_mem _ hq
          have hqk : q.1 ≠ k := by
            intro he
            rw [he, ← hk] at hqm
            exact hnd.1 hqm
          simpa using hqk
        unfold dictDel
        rw [List.filter_cons_of_neg (by simpa using hp), hrest]
        simp
      · have hg' : dictGet rest k = some v := by
          rw [dictGet_cons, if_neg hp] at hg
          exact hg
        unfold dictDel at ih ⊢
        rw [List.filter_cons_of_pos (by simpa using hp)]
        simp only [List.length_cons]
        rw [ih hnd.2 hg']

/-! ## Middleware theorems -/

/-- Helper: unfolding `dispatch` past the public-path test when a
security requirement is configured and the path is protected. -/
theorem dispatch_protected (required : List String) (publicPaths : List String)
    (req : RequestM) (verify : String → Except String TokenPayload)
    (hpub : publicPaths.contains req.path = false) :
    dispatch (some required) publicPaths req verify =
      match getHeader req "Authorization" with
      | none => .unauthorized "Missing or malformed Authorization header." (acceptsStream req)
      | some h =>
        if h = "" || !pyStartsWith h "Bearer " then
          .unauthorized "Missing or malformed Authorization header." (acceptsStream req)
        else
          match verify ((pySplitOn h "Bearer ").getD 1 "") with
          | .error e => .forbidden ("Authentication failed: " ++ e) (acceptsStream req)
          | .ok payload =>
              if !(required.filter (fun s =>
                    !(pySplit ((dictGet payload "scope").getD "")).contains s)).isEmpty then
                .forbidden ("Missing required scopes: " ++
                  pyListRepr (required.filter (fun s =>
                    !(pySplit ((dictGet payload "scope").getD "")).contains s)))
                  (acceptsStream req)
              else .passthrough := by
  unfold dispatch
  rw [hpub]
  simp

/-- C4: on a protected path with a configured requirement, a missing,
empty or non-Bearer Authorization header is rejected with the 401
unauthorized response, while any verifier failure is rejected with the
403 forbidden response — never 401. -/
theorem bearer_auth_rejections (required : List String) (publicPaths : List String)
    (req : RequestM) (verify : String → Except String TokenPayload)
    (hpub : publicPaths.contains req.path = false) :
    ((getHeader req "Authorization" = none ∨
      getHeader req "Authorization" = some "" ∨
      (∃ h, getHeader req "Authorization" = some h ∧ pyStartsWith h "Bearer " = false)) →
      dispatch (some required) publicPaths req verify =
        .unauthorized "Missing or malformed Authorization header." (acceptsStream req) ∧
      (dispatch (some required) publicPaths req verify).statusCode = some 401) ∧
    (∀ h e, getHeader req "Authorization" = some h →
      pyStartsWith h "Bearer " = true →
      verify ((pySplitOn h "Bearer ").getD 1 "") = .error e →
      dispatch (some required) publicPaths req verify =
        .forbidden ("Authentication failed: " ++ e) (acceptsStream req) ∧
      (dispatch (some required) publicPaths req verify).statusCode = some 403) := by
  rw [dispatch_protected required publicPaths req verify hpub]
  constructor
  · rintro (hh | hh | ⟨h, hh, hs⟩)
    · rw [hh]; exact ⟨rfl, rfl⟩
    · rw [hh]
      constructor
      · simp
      · simp [ResponseM.statusCode]
    · rw [hh]
      constructor
      · simp [hs]
      · simp [hs, ResponseM.statusCode]
  · intro h e hh hs hv
    have hne : decide (h = "") = false := by
      apply decide_eq_false
      intro he
      rw [he] at hs
      exact absurd hs (by decide)
    rw [List.getD_eq_getElem?_getD] at hv
    rw [hh]
    constructor
    · simp [hne, hs, hv]
    · simp [hne, hs, hv, ResponseM.statusCode]

/-- C4 witness: a request with no Authorization header is rejected 401;
a request whose token the verifier rejects is rejected 403. -/
theorem bearer_auth_rejections_witness :
    (dispatch (some ["scope:a"]) [] reqNoHdr0 verifyFail0).statusCode = some 401 ∧
    (dispatch (some ["scope:a"]) [] req0 verifyFail0).statusCode = some 403 := by
  have h1 := bearer_auth_rejections ["scope:a"] [] reqNoHdr0 verifyFail0 (by decide)
  have h2 := bearer_auth_rejections ["scope:a"] [] req0 verifyFail0 (by decide)
  exact ⟨(h1.1 (Or.inl (by decide))).2,
    (h2.2 "Bearer sometoken" "JWT verification failed: signature mismatch for kid 42"
      (by decide) (by decide) rfl).2⟩

/-- C5: once the verifier accepts the token, the request is rejected
with a Forbidden response naming exactly the required scopes missing
from the token's granted scopes, and admitted to the inner app when no
scope is missing. -/
theorem scope_enforcement (required : List String) (publicPaths : List String)
    (req : RequestM) (verify : String → Except String TokenPayload)
    (h : String) (payload : TokenPayload)
    (hpub : publicPaths.contains req.path = false)
    (hh : getHeader req "Authorization" = some h)
    (hs : pyStartsWith h "Bearer " = true)
    (hv : verify ((pySplitOn h "Bearer ").getD 1 "") = .ok payload) :
    (required.filter (fun s =>
        !(pySplit ((dictGet payload "scope").getD "")).contains s) ≠ [] →
      dispatch (some required) publicPaths req verify =
        .forbidden ("Missing required scopes: " ++
          pyListRepr (required.filter (fun s =>
            !(pySplit ((dictGet payload "scope").getD "")).contains s)))
          (acceptsStream req)) ∧
    (required.filter (fun s =>
        !(pySplit ((dictGet payload "scope").getD "")).contains s) = [] →
      dispatch (some required) publicPaths req verify = .passthrough) := by
  rw [dispatch_protected required publicPaths req verify hpub]
  have hne : decide (h = "") = false := by
    apply decide_eq_false
    intro he
    rw [he] at hs
    exact absurd hs (by decide)
  rw [List.getD_eq_getElem?_getD] at hv
  rw [hh]
  constructor
  · intro hm
    obtain ⟨x, hxmem⟩ := List.exists_mem_of_ne_nil _ hm
    have hx := List.mem_filter.mp hxmem
    simp [hne, hs, hv]
    exact ⟨x, hx.1, by simpa using hx.2⟩
  · intro hm
    simp [hne, hs, hv]
    intro x hxr
    by_contra hxn
    have hxf : x ∈ required.filter (fun s =>
        !(pySplit ((dictGet payload "scope").getD "")).contains s) :=
      List.mem_filter.mpr ⟨hxr, by simpa using hxn⟩
    rw [hm] at hxf
    exact absurd hxf (List.not_mem_nil x)

/-- C5 witness: with required scopes `scope:a`, `scope:b` and a token
granting only `scope:a`, the rejection names exactly `scope:b`. -/
theorem scope_enforcement_witness :
    dispatch (some ["scope:a", "scope:b"]) [] req0 verifyOk0 =
      .forbidden ("Missing required scopes: " ++ pyListRepr ["scope:b"]) false := by
  have h := scope_enforcement ["scope:a", "scope:b"] [] req0 verifyOk0
    "Bearer sometoken" [("scope", "scope:a")] (by decide) (by decide) (by decide) rfl
  have h2 := h.1 (by decide)
  exact h2.trans (by decide)

/-- C6 (amended): a verifier failure is rejected with a Forbidden
response whose reason — and therefore whose body — embeds the
verifier's exception detail verbatim. -/
theorem verifier_detail_in_body (required : List String) (publicPaths : List String)
    (req : RequestM) (verify : String → Except String TokenPayload)
    (h : String) (e : String)
    (hpub : publicPaths.contains req.path = false)
    (hh : getHeader req "Authorization" = some h)
    (hs : pyStartsWith h "Bearer " = true)
    (hv : verify ((pySplitOn h "Bearer ").getD 1 "") = .error e) :
    dispatch (some required) publicPaths req verify =
      .forbidden ("Authentication failed: " ++ e) (acceptsStream req) ∧
    ∃ pre post,
      (dispatch (some required) publicPaths req verify).bodyText = pre ++ e ++ post := by
  have hfb := ((bearer_auth_rejections required publicPaths req verify hpub).2
    h e hh hs hv).1
  refine ⟨hfb, ?_⟩
  rw [hfb]
  cases hstr : acceptsStream req with
  | true =>
      refine ⟨"error forbidden: Authentication failed: ", "", ?_⟩
      show "error forbidden: " ++ ("Authentication failed: " ++ e) =
        "error forbidden: Authentication failed: " ++ e ++ ""
      rw [String.append_empty, ← String.append_assoc]
      rfl
  | false =>
      refine ⟨"\x7b\"error\": \"forbidden\", \"reason\": \"Authentication failed: ",
        "\"\x7d", ?_⟩
      show "\x7b\"error\": \"forbidden\", \"reason\": \"" ++ ("Authentication failed: " ++ e) ++ "\"\x7d" =
        "\x7b\"error\": \"forbidden\", \"reason\": \"Authentication failed: " ++ e ++ "\"\x7d"
      rw [← String.append_assoc]
      rfl

/-- C6 counterexample: the verifier's internal diagnostic appears
verbatim in the body of the 403 response sent to the client. -/
theorem verifier_detail_in_body_cex :
    dispatch (some ["scope:a"]) [] req0 verifyFail0 =
      .forbidden "Authentication failed: JWT verification failed: signature mismatch for kid 42"
        false ∧
    strContains ((dispatch (some ["scope:a"]) [] req0 verifyFail0).bodyText)
      "signature mismatch for kid 42" = true := by
  constructor
  · rfl
  · decide

/-- C6 witness: the amended statement applied to a concrete failing
verifier. -/
theorem verifier_detail_in_body_witness :
    ∃ pre post,
      (dispatch (some ["scope:a"]) [] req0 verifyFail0).bodyText =
        pre ++ "JWT verification failed: signature mismatch for kid 42" ++ post := by
  exact (verifier_detail_in_body ["scope:a"] [] req0 verifyFail0 "Bearer sometoken"
    "JWT verification failed: signature mismatch for kid 42"
    (by decide) (by decide) (by decide) rfl).2

/-- Helper: over one requirement whose entries are all supported, the
init loop returns the scopes of the requirement's last entry (each
entry overwrites `self.a2a_auth`). -/
theorem procEntries_supported (card : AgentCardM) (acc : Option (List String))
    (req : List (String × List String))
    (hsup : ∀ q ∈ req, entrySupported card q = true) :
    procEntries card acc req = .ok (match req.getLast? with
      | some q => some q.2
      | none => acc) := by
  induction req generalizing acc with
  | nil => rfl
  | cons q rest ih =>
      have hq := hsup q (List.mem_cons_self q rest)
      unfold entrySupported at hq
      cases hroot : dictGet card.securitySchemes q.1 with
      | none => rw [hroot] at hq; exact absurd hq (by simp)
      | some root =>
          rw [hroot] at hq
          have hq2 : schemeSupported root = true := hq
          cases q with
          | mk nm scopes =>
              have step : procEntries card acc ((nm, scopes) :: rest) =
                  procEntries card (some scopes) rest := by
                simp only [procEntries]
                simp only at hroot
                rw [hroot]
                simp [hq2]
              rw [step, ih (some scopes) (fun r hr => hsup r (List.mem_cons_of_mem _ hr))]
              cases rest with
              | nil => rfl
              | cons r rs =>
                  cases hg : (r :: rs).getLast? with
                  | none =>
                      rw [List.getLast?_eq_none_iff] at hg
                      exact absurd hg (by simp)
                  | some q => rw [List.getLast?_cons_cons, hg]

/-- Helper: over a requirement list with no empty requirement and only
supported schemes, the init loop returns the scopes of the last entry
of the last requirement, whatever the accumulator. -/
theorem procReqs_last (card : AgentCardM) (acc : Option (List String))
    (reqs : List SecReq) (p : String × List String)
    (hne : ∀ req ∈ reqs, req ≠ [])
    (hsup : ∀ req ∈ reqs, ∀ q ∈ req, entrySupported card q = true)
    (hlast : reqs.flatten.getLast? = some p) :
    procReqs card acc reqs = .ok (some p.2) := by
  induction reqs generalizing acc with
  | nil => simp at hlast
  | cons req rest ih =>
      have hreq : req ≠ [] := hne req (List.mem_cons_self req rest)
      unfold procReqs
      rw [if_neg (by simpa [List.isEmpty_iff] using hreq)]
      rw [procEntries_supported card acc req (hsup req (List.mem_cons_self req rest))]
      rw [List.flatten_cons, List.getLast?_append] at hlast
      cases rest with
      | nil =>
          simp only [List.flatten_nil, List.getLast?_nil, Option.or] at hlast
          rw [hlast]
          rfl
      | cons r rs =>
          have hr : r ≠ [] := hne r (by simp)
          have hfl : (r :: rs).flatten ≠ [] := by
            cases r with
            | nil => exact absurd rfl hr
            | cons x xs => simp [List.flatten_cons]
          cases hq : (r :: rs).flatten.getLast? with
          | none =>
              rw [List.getLast?_eq_none_iff] at hq
              exact absurd hq hfl
          | some q =>
              rw [hq] at hlast
              simp only [Option.or, Option.some.injEq] at hlast
              subst hlast
              cases hq0 : req.getLast? with
              | none =>
                  rw [List.getLast?_eq_none_iff] at hq0
                  exact absurd hq0 hreq
              | some q0 =>
                  exact ih (some q0.2) (fun t ht => hne t (List.mem_cons_of_mem _ ht))
                    (fun t ht => hsup t (List.mem_cons_of_mem _ ht)) hq

/-- C9 (amended): when every advertised requirement is non-empty and
names only supported schemes, the scopes enforced per request are those
of the LAST entry of the last requirement in the advertised list — each
processed scheme overwrites `self.a2a_auth`, so the last one, not the
first, is authoritative; schemes are never combined. -/
theorem last_scheme_authoritative (card : AgentCardM) (p : String × List String)
    (hne : ∀ req ∈ card.security.getD [], req ≠ [])
    (hsup : ∀ req ∈ card.security.getD [], ∀ q ∈ req, entrySupported card q = true)
    (hlast : (card.security.getD []).flatten.getLast? = some p) :
    initAuth card = .ok (some p.2) :=
  procReqs_last card none (card.security.getD []) p hne hsup hlast

/-- C9 counterexample: with two supported schemes advertised in order
`s1` then `s2`, the middleware enforces the scopes of `s2`, while the
spec's first-match rule selects the scopes of `s1`. -/
theorem last_scheme_authoritative_cex :
    initAuth card0 = .ok (some ["scope:b"]) ∧
    specFirstMatchingScopes card0 = some ["scope:a"] ∧
    (some ["scope:b"] : Option (List String)) ≠ some ["scope:a"] := by
  refine ⟨rfl, rfl, ?_⟩
  decide

/-- C9 witness: the amended statement applied to the concrete card. -/
theorem last_scheme_authoritative_witness :
    initAuth card0 = .ok (some ["scope:b"]) := by
  exact last_scheme_authoritative card0 ("s2", ["scope:b"])
    (by decide) (by decide) (by decide)

/-! ## Birthday agent theorems -/

/-- C3 (amended): when no streamed event carries `input_required`, the
delegation loop never discards its accumulator — whatever response list
a successful run returns extends the chunks accumulated so far, so on
stream end the collected chunks are returned to the caller, not
discarded. -/
theorem no_terminal_partial_result (events : List StreamResultM) (tc : ToolContextM)
    (acc vs : List PVal) (tc2 : ToolContextM)
    (hni : ∀ ev ∈ events, isInputRequiredEvent ev = false)
    (hok : send_task_loop events tc acc = .ok (vs, tc2)) :
    ∃ tail, vs = acc ++ tail := by
  induction events generalizing tc acc with
  | nil =>
      unfold send_task_loop at hok
      simp only [Except.ok.injEq, Prod.mk.injEq] at hok
      exact ⟨[], by rw [← hok.1, List.append_nil]⟩
  | cons ev rest ih =>
      have hni0 := hni ev (List.mem_cons_self ev rest)
      have hnirest : ∀ e ∈ rest, isInputRequiredEvent e = false :=
        fun e he => hni e (List.mem_cons_of_mem _ he)
      cases ev with
      | statusUpdate st =>
          have hni0b : (st.state == TaskStateM.input_required) = false := hni0
          cases hm : st.message with
          | some m =>
              have hstep : send_task_loop (.statusUpdate st :: rest) tc acc =
                  (match convert_parts m.parts tc with
                   | .error e => .error e
                   | .ok (vs2, tc3) => send_task_loop rest tc3 (acc ++ vs2)) := by
                simp only [send_task_loop]
                rw [if_neg (by simp [hni0b]), hm]
              rw [hstep] at hok
              cases hc : convert_parts m.parts tc with
              | error e => rw [hc] at hok; exact absurd hok (by simp)
              | ok pr =>
                  obtain ⟨vs2, tc3⟩ := pr
                  rw [hc] at hok
                  have hok2 : send_task_loop rest tc3 (acc ++ vs2) = Except.ok (vs, tc2) := hok
                  obtain ⟨tail, ht⟩ := ih tc3 (acc ++ vs2) hnirest hok2
                  exact ⟨vs2 ++ tail, by rw [ht, List.append_assoc]⟩
          | none =>
              have hstep : send_task_loop (.statusUpdate st :: rest) tc acc =
                  send_task_loop rest tc acc := by
                simp only [send_task_loop]
                rw [if_neg (by simp [hni0b]), hm]
              rw [hstep] at hok
              exact ih tc acc hnirest hok
      | artifactUpdate =>
          unfold send_task_loop at hok
          exact ih tc acc hnirest hok

/-- C3 counterexample: a stream with one non-terminal `working` status
update and no `input_required` ends with the accumulated chunk list
returned to the caller — the partial result `["hello"]` is returned,
not discarded. -/
theorem no_terminal_partial_result_cex :
    send_task evStream0 tc0 = .ok ([.str "hello"], tc0) ∧
    ([PVal.str "hello"] : List PVal) ≠ [] := by
  exact ⟨rfl, by decide⟩

/-- C3 witness: the amended statement applied to the concrete stream
with a non-empty accumulator. -/
theorem no_terminal_partial_result_witness :
    ∃ tail, [PVal.str "pre", PVal.str "hello"] = [PVal.str "pre"] ++ tail := by
  exact no_terminal_partial_result evStream0 tc0 [.str "pre"]
    [.str "pre", .str "hello"] tc0 (by decide) rfl

/-- C7: converting any file part raises `NameError` — the module never
imports `base64`, so `base64.b64decode` fails before anything reaches
the artifact store; no structured-data reference is produced and no
bytes are stored. -/
theorem file_part_conversion_raises :
    convert_part (.file "photo.png" "image/png" "aGVsbG8=") tc0 =
      .error (.nameError "base64") := rfl

/-- C8 (amended): for every part whose kind is none of text, data or
file, `convert_part` raises `NameError` — its fall-through return
statement reads the undefined name `p` — rather than an
`UnsupportedPartKind` error carrying the offending kind. -/
theorem unrecognized_kind_nameerror (k : String) (tc : ToolContextM)
    (hk : ¬ k ∈ (["text", "data", "file"] : List String)) :
    convert_part (.other k) tc = .error (.nameError "p") := rfl

/-- C8 counterexample: on a part of kind `video` the conversion fails
with `NameError` on `p`; the error payload does not carry the
offending kind, contradicting the claimed `UnsupportedPartKind`
carrying the kind. -/
theorem unrecognized_kind_nameerror_cex :
    convert_part (.other "video") tc0 = .error (.nameError "p") ∧
    strContains (PyError.payload (.nameError "p")) "video" = false := by
  exact ⟨rfl, by decide⟩

/-- C8 witness: the amended statement applied at kind `video`. -/
theorem unrecognized_kind_nameerror_witness :
    convert_part (.other "video") tc0 = .error (.nameError "p") := by
  exact unrecognized_kind_nameerror "video" tc0 (by decide)

/-! ## Calendar agent theorems -/

/-- Helper: a non-auth event contributes its plain chunk and leaves the
registry and the rest of the run unchanged. -/
theorem processEvents_plain_cons (cardUrl : String) (reg : Registry) (ev : AdkEvent)
    (rest : List AdkEvent)
    (hnone : get_auth_request_function_call ev = none)
    (hfin : ev.is_final_response = true → (finalResponseValue ev).isOk = true) :
    processEvents cardUrl reg (ev :: rest) =
      ⟨plainChunk ev :: (processEvents cardUrl reg rest).chunks,
       (processEvents cardUrl reg rest).registry,
       (processEvents cardUrl reg rest).outcome⟩ := by
  cases hf : ev.is_final_response with
  | false =>
      simp only [processEvents, hnone, hf]
      simp [plainChunk, hf]
  | true =>
      have hok := hfin hf
      cases hv : finalResponseValue ev with
      | error err => rw [hv] at hok; exact absurd hok (by simp [Except.isOk, Except.toBool])
      | ok v =>
          simp only [processEvents, hnone, hf, hv]
          simp [plainChunk, hf, hv, Except.toOption]

/-- Helper: processing a prefix of non-auth events that do not raise
prepends their plain chunks and forwards registry and outcome from the
remaining events. -/
theorem processEvents_append_plain (cardUrl : String) (reg : Registry)
    (pre tail : List AdkEvent)
    (hpre : ∀ ev ∈ pre, get_auth_request_function_call ev = none ∧
        (ev.is_final_response = true → (finalResponseValue ev).isOk = true)) :
    processEvents cardUrl reg (pre ++ tail) =
      ⟨pre.map plainChunk ++ (processEvents cardUrl reg tail).chunks,
       (processEvents cardUrl reg tail).registry,
       (processEvents cardUrl reg tail).outcome⟩ := by
  induction pre with
  | nil =>
      rw [List.nil_append]
      rfl
  | cons ev pre ih =>
      obtain ⟨hnone, hfin⟩ := hpre ev (List.mem_cons_self ev pre)
      have ih2 := ih (fun e he => hpre e (List.mem_cons_of_mem _ he))
      rw [List.cons_append,
        processEvents_plain_cons cardUrl reg ev (pre ++ tail) hnone hfin, ih2]
      rfl

/-- Helper: processing an event that carries a well-formed
`adk_request_credential` long-running function call registers the
suspension under the uri's `state` token by dict assignment, yields the
single input-required chunk, and breaks — the remaining events are
never consumed. -/
theorem processEvents_auth_event (cardUrl : String) (reg : Registry) (e : AdkEvent)
    (post : List AdkEvent) (fc : FunctionCallM) (fid : String) (cfg : AuthConfigM)
    (tok : String)
    (hfc : get_auth_request_function_call e = some fc)
    (hid : fc.id = some fid) (hfid : fid ≠ "")
    (hcfg : fc.authConfigArg = some cfg)
    (hbase : cfg.exchanged_auth_credential.oauth2.auth_uri ≠ "")
    (htok : getQueryParam cfg.exchanged_auth_credential.oauth2.auth_uri "state" = some tok) :
    processEvents cardUrl reg (e :: post) =
      ⟨[.inputRequired ("Authorization is required to continue. Visit " ++
          (cfg.exchanged_auth_credential.oauth2.auth_uri ++ "&redirect_uri=" ++
            (cardUrl ++ "authenticate")))],
        dictInsert reg tok ⟨fid, cfg, cardUrl ++ "authenticate", tok⟩,
        .suspended ⟨fid, cfg, cardUrl ++ "authenticate", tok⟩⟩ := by
  simp only [processEvents, hfc, hid, hcfg]
  simp [hfid, hbase, htok]

/-- C1 (amended): triggering a suspension whose correlation token is
already live in the waiting-session dict succeeds — no
`DuplicateCorrelationToken` error exists — and the plain dict
assignment replaces the original entry: afterwards the token maps to
the NEW suspension. -/
theorem second_suspension_replaces (cardUrl : String) (reg : Registry) (e : AdkEvent)
    (fc : FunctionCallM) (fid : String) (cfg : AuthConfigM) (tok : String)
    (sOld : Suspension)
    (hlive : dictGet reg tok = some sOld)
    (hfc : get_auth_request_function_call e = some fc)
    (hid : fc.id = some fid) (hfid : fid ≠ "")
    (hcfg : fc.authConfigArg = some cfg)
    (hbase : cfg.exchanged_auth_credential.oauth2.auth_uri ≠ "")
    (htok : getQueryParam cfg.exchanged_auth_credential.oauth2.auth_uri "state" = some tok) :
    (processEvents cardUrl reg [e]).outcome =
      .suspended ⟨fid, cfg, cardUrl ++ "authenticate", tok⟩ ∧
    dictGet (processEvents cardUrl reg [e]).registry tok =
      some ⟨fid, cfg, cardUrl ++ "authenticate", tok⟩ ∧
    ((⟨fid, cfg, cardUrl ++ "authenticate", tok⟩ : Suspension) ≠ sOld →
      dictGet (processEvents cardUrl reg [e]).registry tok ≠ some sOld) := by
  have h := processEvents_auth_event cardUrl reg e [] fc fid cfg tok
    hfc hid hfid hcfg hbase htok
  rw [h]
  refine ⟨rfl, dictGet_dictInsert_self reg tok _, ?_⟩
  intro hne
  rw [dictGet_dictInsert_self reg tok _]
  intro hcontra
  exact hne (Option.some.injEq .. ▸ hcontra ▸ rfl)

/-- C1 counterexample: with the token `abc123` already live for the
suspension `oldSusp0`, processing a second well-formed auth event for
the same token succeeds with an input-required chunk (the claimed
`DuplicateCorrelationToken` failure does not happen) and the registry
entry is replaced by the new suspension, not left intact. -/
theorem second_suspension_replaces_cex :
    processEvents "http://h:1/" reg0 [authEv0] =
      ⟨[.inputRequired "Authorization is required to continue. Visit https://idp/auth?state=abc123&redirect_uri=http://h:1/authenticate"],
        [("abc123", newSusp0)], .suspended newSusp0⟩ ∧
    newSusp0 ≠ oldSusp0 ∧
    dictGet [("abc123", newSusp0)] "abc123" ≠ some oldSusp0 := by
  refine ⟨by decide, by decide, by decide⟩

/-- C1 witness: the amended statement applied to the concrete registry
and event. -/
theorem second_suspension_replaces_witness :
    dictGet (processEvents "http://h:1/" reg0 [authEv0]).registry "abc123" =
      some ⟨"fc-new", cfg0, "http://h:1/" ++ "authenticate", "abc123"⟩ := by
  exact (second_suspension_replaces "http://h:1/" reg0 authEv0
    ⟨some "fc-new", "adk_request_credential", some cfg0⟩ "fc-new" cfg0 "abc123" oldSusp0
    (by decide) (by decide) (by decide) (by decide) (by decide) (by decide)
    (by decide)).2.1

/-- C2: delivering the authorization callback for a registered token
resumes the suspended frame, which deletes exactly that one registry
entry (the token is gone and the size drops by one); delivering it for
an unregistered token fails with the lookup `KeyError` and leaves the
registry untouched. -/
theorem resume_registry_exact (reg : Registry) (token respUri : String)
    (hwf : RegistryWF reg) :
    (dictGet reg token = none →
      deliverCallback reg token respUri = (.error (.keyError token), reg)) ∧
    (∀ s, dictGet reg token = some s →
      (deliverCallback reg token respUri).2 = dictDel reg token ∧
      dictGet (deliverCallback reg token respUri).2 token = none ∧
      (deliverCallback reg token respUri).2.length + 1 = reg.length) := by
  constructor
  · intro hg
    unfold deliverCallback
    rw [hg]
  · intro s hg
    have hmem : (token, s) ∈ reg := dictGet_eq_some_mem hg
    have hst : s.stateToken = token := hwf.1 (token, s) hmem
    have hsnd : (deliverCallback reg token respUri).2 = dictDel reg token := by
      unfold deliverCallback
      rw [hg]
      simp only [hst]
    refine ⟨hsnd, ?_, ?_⟩
    · rw [hsnd]
      exact dictGet_dictDel_self reg token
    · rw [hsnd]
      exact dictDel_length reg token hwf.2 hg

/-- C2 witness: an unknown token fails with `KeyError` leaving the
one-entry registry unchanged; the known token `abc123` is removed,
leaving the registry empty. -/
theorem resume_registry_exact_witness :
    deliverCallback reg0 "zzz" "https://idp/cb?code=xyz" =
      (.error (.keyError "zzz"), reg0) ∧
    (deliverCallback reg0 "abc123" "https://idp/cb?code=xyz").2.length + 1 =
      reg0.length := by
  have hwf : RegistryWF reg0 := ⟨by decide, by decide⟩
  have h1 := resume_registry_exact reg0 "zzz" "https://idp/cb?code=xyz" hwf
  have h2 := resume_registry_exact reg0 "abc123" "https://idp/cb?code=xyz" hwf
  exact ⟨h1.1 (by decide), (h2.2 oldSusp0 (by decide)).2.2⟩

/-- C10: once a well-formed auth-request function call is detected, the
loop emits the chunks of the earlier events followed by exactly one
input-required chunk, registers the suspension, and breaks: the result
does not depend on the events after the auth event (they are never
consumed), and the input-required chunk is the only one in the whole
run. -/
theorem auth_break_stops_consumption (cardUrl : String) (reg : Registry)
    (pre post : List AdkEvent) (e : AdkEvent) (fc : FunctionCallM)
    (fid : String) (cfg : AuthConfigM) (tok : String)
    (hpre : ∀ ev ∈ pre, get_auth_request_function_call ev = none ∧
        (ev.is_final_response = true → (finalResponseValue ev).isOk = true))
    (hfc : get_auth_request_function_call e = some fc)
    (hid : fc.id = some fid) (hfid : fid ≠ "")
    (hcfg : fc.authConfigArg = some cfg)
    (hbase : cfg.exchanged_auth_credential.oauth2.auth_uri ≠ "")
    (htok : getQueryParam cfg.exchanged_auth_credential.oauth2.auth_uri "state" = some tok) :
    processEvents cardUrl reg (pre ++ e :: post) =
      ⟨pre.map plainChunk ++
        [.inputRequired ("Authorization is required to continue. Visit " ++
          (cfg.exchanged_auth_credential.oauth2.auth_uri ++ "&redirect_uri=" ++
            (cardUrl ++ "authenticate")))],
        dictInsert reg tok ⟨fid, cfg, cardUrl ++ "authenticate", tok⟩,
        .suspended ⟨fid, cfg, cardUrl ++ "authenticate", tok⟩⟩ ∧
    (processEvents cardUrl reg (pre ++ e :: post)).chunks.filter ChunkM.isInputReq =
      [.inputRequired ("Authorization is required to continue. Visit " ++
        (cfg.exchanged_auth_credential.oauth2.auth_uri ++ "&redirect_uri=" ++
          (cardUrl ++ "authenticate")))] := by
  have h1 := processEvents_append_plain cardUrl reg pre (e :: post) hpre
  have h2 := processEvents_auth_event cardUrl reg e post fc fid cfg tok
    hfc hid hfid hcfg hbase htok
  have hmain : processEvents cardUrl reg (pre ++ e :: post) =
      ⟨pre.map plainChunk ++
        [.inputRequired ("Authorization is required to continue. Visit " ++
          (cfg.exchanged_auth_credential.oauth2.auth_uri ++ "&redirect_uri=" ++
            (cardUrl ++ "authenticate")))],
        dictInsert reg tok ⟨fid, cfg, cardUrl ++ "authenticate", tok⟩,
        .suspended ⟨fid, cfg, cardUrl ++ "authenticate", tok⟩⟩ := by
    rw [h1, h2]
  refine ⟨hmain, ?_⟩
  rw [hmain]
  show (pre.map plainChunk ++ _).filter ChunkM.isInputReq = _
  rw [List.filter_append]
  have hpm : (pre.map plainChunk).filter ChunkM.isInputReq = [] := by
    rw [List.filter_eq_nil_iff]
    intro c hc
    obtain ⟨ev, _, rfl⟩ := List.mem_map.mp hc
    unfold plainChunk
    cases hf : ev.is_final_response <;> simp [ChunkM.isInputReq]
  rw [hpm, List.nil_append]
  rfl

/-- C10 witness: a progress event, then a well-formed auth event, then
a final event: the run emits one progress chunk and one input-required
chunk, suspends, and never processes the final event. -/
theorem auth_break_stops_consumption_witness :
    processEvents "http://h:1/" [] ([progEv0] ++ authEv0 :: [finEv0]) =
      ⟨[ChunkM.progress,
        .inputRequired "Authorization is required to continue. Visit https://idp/auth?state=abc123&redirect_uri=http://h:1/authenticate"],
        [("abc123", newSusp0)], .suspended newSusp0⟩ ∧
    (processEvents "http://h:1/" [] ([progEv0] ++ authEv0 :: [finEv0])).chunks.filter
      ChunkM.isInputReq =
      [ChunkM.inputRequired "Authorization is required to continue. Visit https://idp/auth?state=abc123&redirect_uri=http://h:1/authenticate"] := by
  have h := auth_break_stops_consumption "http://h:1/" [] [progEv0] [finEv0] authEv0
    ⟨some "fc-new", "adk_request_credential", some cfg0⟩ "fc-new" cfg0 "abc123"
    (by decide) (by decide) (by decide) (by decide) (by decide) (by decide) (by decide)
  exact ⟨h.1.trans (by decide), h.2.trans (by decide)⟩
